import Mathlib

/-!
Shallow embedding of `src/fesvr/device.cc` (riscv-fesvr device layer).

The file models the device abstraction of the host-target bridge: the
generic device with its command table and identify handler, the console
device (`bcd_t`), the block-storage device (`disk_t`), the socket-bridge
device (`char_t`) and the device registry (`device_list_t`).

Target memory is a byte map `Nat → Nat`.  Handlers are functions from the
device state, the current memory and the command to an `Option` of a new
state together with a trace of externally visible events (memory reads,
memory writes, responses); `none` models a fatal outcome (a failed
`assert` or a thrown exception).  Host syscall outcomes (socket read and
write results, OS poll results) are explicit parameters of the handlers,
since the kernel's behaviour is an input to the code, not part of it.

The constants `MAX_COMMANDS`, `MAX_DEVICES` and `IDENTITY_SIZE` are
declared in `device.h`, which is not part of the sources; following the
spec they are fixed build-time constants, so every definition is
parametrised over them.
-/

namespace Fesvr

/-- Target memory: a byte value at every address. -/
def Mem : Type := Nat → Nat

/-- `memif().read(addr, len)`: the `len` bytes starting at `addr`. -/
def memReadBytes (m : Mem) (addr len : Nat) : List Nat :=
  (List.range len).map fun i => m (addr + i)

/-- `memif().write(addr, bytes)`: store `bs` starting at `addr`. -/
def memWriteBytes (m : Mem) (addr : Nat) (bs : List Nat) : Mem :=
  fun a => if addr ≤ a ∧ a < addr + bs.length then bs.getD (a - addr) 0 else m a

/-- Externally visible actions a handler performs, in order. -/
inductive Event : Type where
  | memRead (addr len : Nat)
  | memWrite (addr : Nat) (data : List Nat)
  | respond (v : Nat)
deriving DecidableEq, Repr

/-- Effect of one event on target memory (only writes change it). -/
def applyEvent (m : Mem) : Event → Mem
  | .memWrite addr data => memWriteBytes m addr data
  | _ => m

/-- Effect of a whole trace on target memory. -/
def applyEvents (m : Mem) (es : List Event) : Mem :=
  es.foldl applyEvent m

/-- The responses sent over a trace, in order. -/
def responses (es : List Event) : List Nat :=
  es.filterMap fun e => match e with
    | .respond v => some v
    | _ => none

/-- Little-endian byte image of `v` on `w` bytes. -/
def leBytes (w v : Nat) : List Nat :=
  (List.range w).map fun i => v / 256 ^ i % 256

/-- Value of a little-endian byte list (each byte taken mod 256). -/
def leVal : List Nat → Nat
  | [] => 0
  | b :: bs => b % 256 + 256 * leVal bs

/-- Modelled from the spec: the `request_t` record of `device.h` (not under
`src/`) — the Request Descriptor `{tag, target address, offset, size}`
living in target memory; all four fields are 64-bit. -/
structure request_t : Type where
  addr : Nat
  offset : Nat
  size : Nat
  tag : Nat
deriving DecidableEq, Repr

/-- Modelled from the spec: byte width of `request_t` (four 64-bit fields). -/
def requestBytes : Nat := 32

/-- Modelled from the spec: the in-memory image of a Request Descriptor
(four 64-bit little-endian fields, in declaration order). -/
def encodeReq (r : request_t) : List Nat :=
  leBytes 8 r.addr ++ leBytes 8 r.offset ++ leBytes 8 r.size ++ leBytes 8 r.tag

/-- Reading a Request Descriptor from target memory at address `p`. -/
def decodeReq (m : Mem) (p : Nat) : request_t :=
  { addr := leVal (memReadBytes m p 8)
    offset := leVal (memReadBytes m (p + 8) 8)
    size := leVal (memReadBytes m (p + 16) 8)
    tag := leVal (memReadBytes m (p + 24) 8) }

/-! ## Generic device (`device_t`) -/

/-- The state of a generic device: the human-readable names of its command
table (the handlers themselves are structural, see `device_handle_command`)
and its identity string, both as byte lists. -/
structure device_t : Type where
  command_names : List (List Nat)
  identity : List Nat
deriving DecidableEq, Repr

/-- `device_t::register_command`: binds `name` at index `cmd`; the
assertions `cmd < MAX_COMMANDS` and `strlen(name) < IDENTITY_SIZE` are
fatal on failure. -/
def register_command (MC IS : Nat) (d : device_t) (cmd : Nat)
    (name : List Nat) : Option device_t :=
  if cmd < MC ∧ name.length < IS then
    some { d with command_names := d.command_names.set cmd name }
  else
    none

/-- The byte string `"identity"`, the name bound to the reserved last
command slot by the `device_t` constructor. -/
def identityName : List Nat := [105, 100, 101, 110, 116, 105, 116, 121]

/-- The `device_t` constructor: every slot gets the null handler and the
empty name, then the last slot is rebound to the identify handler named
`"identity"`.  `none` when one of the registration assertions fires. -/
def device_init (MC IS : Nat) : Option device_t :=
  let base : device_t := { command_names := List.replicate MC [], identity := [] }
  (List.range MC).foldlM (fun d cmd => register_command MC IS d cmd []) base
    >>= fun d => register_command MC IS d (MC - 1) identityName

/-- `strcpy` of `s` into a zero-filled buffer of `n` bytes (as in the
identify handler); for `s.length < n` this is `s` padded with zeros. -/
def padTo (n : Nat) (s : List Nat) : List Nat :=
  s.take n ++ List.replicate (n - s.length) 0

/-- `device_t::handle_identify`: split the payload as
`what = payload % MAX_COMMANDS`, `addr = payload / MAX_COMMANDS`; assert
`addr % IDENTITY_SIZE == 0`; fill an `IDENTITY_SIZE` buffer with the
device's identity (asserting its length) when `what` is the last slot,
else with the name at slot `what`; write it to target memory at `addr`
and respond `1`. -/
def handle_identify (MC IS : Nat) (d : device_t) (payload : Nat) :
    Option (List Event) :=
  let what := payload % MC
  let addr := payload / MC
  if addr % IS = 0 then
    if what = MC - 1 then
      if d.identity.length < IS then
        some [.memWrite addr (padTo IS d.identity), .respond 1]
      else
        none
    else
      some [.memWrite addr (padTo IS (d.command_names.getD what [])), .respond 1]
  else
    none

/-- `device_t::handle_null_command`: empty body — no effects, no response. -/
def handle_null_command : Option (List Event) :=
  some []

/-- `device_t::handle_command` for a device whose table is the one built by
the `device_t` constructor (null handler everywhere except the identify
handler at the reserved last slot) — this is the table of the shared
`null_device`. -/
def device_handle_command (MC IS : Nat) (d : device_t) (cmd payload : Nat) :
    Option (List Event) :=
  if cmd = MC - 1 then handle_identify MC IS d payload
  else handle_null_command

/-! ## Device registry (`device_list_t`) -/

/-- `device_list_t`, over an abstract device slot type `δ`: the vector of
device references and the registered count.  The constructor sizes the
vector with `MAX_COMMANDS` copies of the shared null device (that is what
line 290 of `device.cc` does — `MAX_COMMANDS`, not `MAX_DEVICES`). -/
structure device_list_t (δ : Type) : Type where
  devices : List δ
  num_devices : Nat
deriving DecidableEq, Repr

/-- `device_list_t` constructor. -/
def device_list_init {δ : Type} (MC : Nat) (nullDev : δ) : device_list_t δ :=
  { devices := List.replicate MC nullDev, num_devices := 0 }

/-- `device_list_t::register_device`: increments the count, asserts
`num_devices < MAX_DEVICES` (fatal), stores the device at the previous
count. -/
def register_device {δ : Type} (MD : Nat) (l : device_list_t δ) (dev : δ) :
    Option (device_list_t δ) :=
  let n := l.num_devices + 1
  if n < MD then
    some { devices := l.devices.set (n - 1) dev, num_devices := n }
  else
    none

/-- A sequence of `register_device` calls, in order. -/
def register_devices {δ : Type} (MD : Nat) (l : device_list_t δ)
    (ds : List δ) : Option (device_list_t δ) :=
  ds.foldlM (register_device MD) l

/-- `device_list_t::handle_command`: route to `devices[cmd.device()]` and
forward; indexing outside the vector is undefined behaviour, modelled
fatal. -/
def list_handle_command {δ : Type} (l : device_list_t δ)
    (dispatch : δ → Nat → Nat → Option (List Event)) (dev cmd payload : Nat) :
    Option (List Event) :=
  match l.devices.get? dev with
  | some d => dispatch d cmd payload
  | none => none

/-! ## Console device (`bcd_t`)

A queued console read is identified by an opaque token (the stored
`command_t`); `tick` responses pair that token with the value sent, so a
response over the command's one-shot channel is `(token, value)`. -/

/-- `bcd_t` state: the FIFO of pending read commands (head = oldest). -/
structure bcd_t : Type where
  pending_reads : List Nat
deriving DecidableEq, Repr

/-- `bcd_t::handle_read`: the command is queued; no response yet. -/
def bcd_handle_read (s : bcd_t) (c : Nat) : bcd_t :=
  { pending_reads := s.pending_reads ++ [c] }

/-- `bcd_t::handle_write`: emit the low byte to the terminal, respond
`0x100 | byte` at once.  The emitted byte and the response are returned. -/
def bcd_handle_write (payload : Nat) : Nat × Nat :=
  (payload % 256, 0x100 ||| payload % 256)

/-- `bcd_t::tick`: `term` is the terminal's buffered input.  If a read is
pending the terminal is polled, and when a character is available the
oldest read is answered with `0x100 | ch` and dequeued.  Returns the new
state, the remaining terminal buffer, and the responses sent. -/
def bcd_tick (s : bcd_t) (term : List Nat) :
    bcd_t × List Nat × List (Nat × Nat) :=
  match s.pending_reads, term with
  | c :: rest, ch :: term2 => (⟨rest⟩, term2, [(c, 0x100 ||| ch)])
  | _, _ => (s, term, [])

/-- `k` consecutive scheduling cycles of `bcd_t::tick`. -/
def bcd_run (s : bcd_t) (term : List Nat) :
    Nat → bcd_t × List Nat × List (Nat × Nat)
  | 0 => (s, term, [])
  | k + 1 =>
    let r1 := bcd_tick s term
    let r2 := bcd_run r1.1 r1.2.1 k
    (r2.1, r2.2.1, r1.2.2 ++ r2.2.2)

/-! ## Block-storage device (`disk_t`) -/

/-- `disk_t` state: the bytes of the backing file. -/
structure disk_t : Type where
  contents : List Nat
deriving DecidableEq, Repr

/-- Host `pread(fd, ·, count, offset)` on the backing file: the bytes from
`offset`, at most `count` of them and never past end of file. -/
def filePread (f : List Nat) (offset count : Nat) : List Nat :=
  (f.drop offset).take count

/-- Host `pwrite(fd, data, ·, offset)` on a regular file: writes all of
`data` at `offset`, zero-extending the file if `offset` lies past its
end. -/
def filePwrite (f : List Nat) (offset : Nat) (data : List Nat) : List Nat :=
  let padded := f ++ List.replicate (offset + data.length - f.length) 0
  padded.take offset ++ data ++ padded.drop (offset + data.length)

/-- `disk_t::handle_read`: read the descriptor at the payload address,
`pread` `size` bytes at `offset` (fatal unless exactly `size` bytes come
back), write them to target memory at `addr`, respond `tag`. -/
def disk_handle_read (d : disk_t) (m : Mem) (payload : Nat) :
    Option (disk_t × List Event) :=
  let req := decodeReq m payload
  let buf := filePread d.contents req.offset req.size
  if buf.length = req.size then
    some (d, [.memRead payload requestBytes, .memWrite req.addr buf,
              .respond req.tag])
  else
    none

/-- `disk_t::handle_write`: read the descriptor, read `size` bytes from
target memory at `addr`, `pwrite` them at `offset` (a regular-file write
of `size` bytes transfers all of them), respond `tag`. -/
def disk_handle_write (d : disk_t) (m : Mem) (payload : Nat) :
    Option (disk_t × List Event) :=
  let req := decodeReq m payload
  let buf := memReadBytes m req.addr req.size
  some ({ contents := filePwrite d.contents req.offset buf },
        [.memRead payload requestBytes, .memRead req.addr req.size,
         .respond req.tag])

/-! ## Socket-bridge device (`char_t`)

The non-blocking socket syscalls are inputs to the handlers: a host read
yields either would-block (`EAGAIN`/`EWOULDBLOCK`), some other error, or
a list of received bytes (empty = peer closed); a host write yields
would-block, some other error, or a transferred byte count. -/

/-- `char_t` state: whether a peer connection is active (`fd >= 0`). -/
structure char_t : Type where
  connected : Bool
deriving DecidableEq, Repr

/-- Outcome of the non-blocking `::read` on the connection. -/
inductive NetReadResult : Type where
  | wouldBlock
  | fail
  | bytes (bs : List Nat)
deriving DecidableEq, Repr

/-- Outcome of the non-blocking `::write` on the connection. -/
inductive NetWriteResult : Type where
  | wouldBlock
  | fail
  | count (n : Nat)
deriving DecidableEq, Repr

/-- `char_t::handle_read`: read the descriptor; with no connection write
back a zero-size descriptor and respond `tag`; otherwise interpret the
syscall outcome: would-block counts as 0; a non-would-block error is
fatal; zero bytes tears the connection down; `n > 0` bytes are written to
target memory at `addr`.  In every non-fatal case the descriptor's size
is overwritten with the transferred count, written back, and `tag` is the
response. -/
def char_handle_read (s : char_t) (m : Mem) (payload : Nat)
    (net : NetReadResult) : Option (char_t × List Event) :=
  let req := decodeReq m payload
  if s.connected = false then
    some (s, [.memRead payload requestBytes,
              .memWrite payload (encodeReq { req with size := 0 }),
              .respond req.tag])
  else
    match net with
    | .fail => none
    | .wouldBlock =>
      some (s, [.memRead payload requestBytes,
                .memWrite payload (encodeReq { req with size := 0 }),
                .respond req.tag])
    | .bytes bs =>
      if bs.length = 0 then
        some (⟨false⟩, [.memRead payload requestBytes,
                        .memWrite payload (encodeReq { req with size := 0 }),
                        .respond req.tag])
      else
        some (s, [.memRead payload requestBytes,
                  .memWrite req.addr bs,
                  .memWrite payload (encodeReq { req with size := bs.length }),
                  .respond req.tag])

/-- `char_t::handle_write`: read the descriptor; with no connection respond
`tag` at once and do nothing else; otherwise read `size` bytes from target
memory at `addr` and attempt the non-blocking write: would-block counts
as 0 (no descriptor update); a non-would-block error is fatal; a zero
count tears the connection down; for `n > 0` the descriptor becomes
`{size := size - n, addr := addr + n}` and is written back.  `tag` is the
response in every non-fatal case. -/
def char_handle_write (s : char_t) (m : Mem) (payload : Nat)
    (net : NetWriteResult) : Option (char_t × List Event) :=
  let req := decodeReq m payload
  if s.connected = false then
    some (s, [.memRead payload requestBytes, .respond req.tag])
  else
    match net with
    | .fail => none
    | .wouldBlock =>
      some (s, [.memRead payload requestBytes,
                .memRead req.addr req.size,
                .respond req.tag])
    | .count n =>
      if n = 0 then
        some (⟨false⟩, [.memRead payload requestBytes,
                        .memRead req.addr req.size,
                        .respond req.tag])
      else
        some (s, [.memRead payload requestBytes,
                  .memRead req.addr req.size,
                  .memWrite payload
                    (encodeReq { req with size := req.size - n,
                                          addr := req.addr + n }),
                  .respond req.tag])

/-- Modelled from the spec: the device-local readable-interest /
readable bit `char_t::CHAR_POLLIN` of `device.h` (not under `src/`). -/
def CHAR_POLLIN : Nat := 1

/-- Modelled from the spec: the device-local writable-interest /
writable bit `char_t::CHAR_POLLOUT` of `device.h` (not under `src/`). -/
def CHAR_POLLOUT : Nat := 2

/-- Modelled from the spec: the device-local hangup bit
`char_t::CHAR_POLLHUP` of `device.h` (not under `src/`). -/
def CHAR_POLLHUP : Nat := 4

/-- Outcome of the zero-timeout `::poll` on the connection descriptor:
an error, zero ready descriptors, exactly one ready descriptor with its
`POLLIN`/`POLLOUT`/`POLLHUP` revents bits, or any other return value. -/
inductive OsPollResult : Type where
  | fail
  | zeroReady
  | oneReady (pollin pollout pollhup : Bool)
  | other
deriving DecidableEq, Repr

/-- The OS interest set `char_t::handle_poll` requests: `POLLIN` iff the
payload carries `CHAR_POLLIN`, `POLLOUT` iff it carries `CHAR_POLLOUT`. -/
def pollInterest (payload : Nat) : Bool × Bool :=
  (payload % 2 ^ 16 &&& CHAR_POLLIN ≠ 0, payload % 2 ^ 16 &&& CHAR_POLLOUT ≠ 0)

/-- `char_t::handle_poll`: issue the zero-timeout OS poll and map its
outcome: an error is fatal; zero ready descriptors responds with the
hangup bit; one ready descriptor responds with the device-local image of
the OS readable/writable/hangup bits; anything else is fatal. -/
def char_handle_poll (os : OsPollResult) : Option (List Event) :=
  match os with
  | .fail => none
  | .zeroReady => some [.respond CHAR_POLLHUP]
  | .oneReady pollin pollout pollhup =>
    some [.respond ((if pollin then CHAR_POLLIN else 0) |||
                    (if pollout then CHAR_POLLOUT else 0) |||
                    (if pollhup then CHAR_POLLHUP else 0))]
  | .other => none

/-! ## Derived definitions used by the verification -/

/-- A descriptor with every field reduced to its 64-bit image — what
reading back an encoded descriptor yields. -/
def canonReq (r : request_t) : request_t :=
  { addr := r.addr % 2 ^ 64, offset := r.offset % 2 ^ 64,
    size := r.size % 2 ^ 64, tag := r.tag % 2 ^ 64 }

/-- Store the elements of `ds` at consecutive indices starting at `k`
(the registry slots a sequence of registrations fills). -/
def setFrom {δ : Type} (v : List δ) (k : Nat) : List δ → List δ
  | [] => v
  | d :: rest => setFrom (v.set k d) (k + 1) rest

/-- A concrete target memory: a write descriptor
`{addr 100, offset 2, size 3, tag 77}` at address 0, a read descriptor
`{addr 200, offset 2, size 3, tag 88}` at address 40, and the data bytes
`5, 6, 7` at address 100. -/
def c7mem : Mem :=
  memWriteBytes (memWriteBytes (memWriteBytes (fun _ => 0) 0
    (encodeReq ⟨100, 2, 3, 77⟩)) 40 (encodeReq ⟨200, 2, 3, 88⟩)) 100 [5, 6, 7]

/-- A concrete target memory with the descriptor
`{addr 100, offset 0, size 5, tag 9}` at address 0. -/
def charMem : Mem :=
  memWriteBytes (fun _ => 0) 0 (encodeReq ⟨100, 0, 5, 9⟩)

/-- A concrete target memory with the zero-size descriptor
`{addr 100, offset 0, size 0, tag 9}` at address 0. -/
def charMem0 : Mem :=
  memWriteBytes (fun _ => 0) 0 (encodeReq ⟨100, 0, 0, 9⟩)

/-! # Theorems -/

/-! ## Memory and descriptor-encoding lemmas -/

theorem leBytes_length (w v : Nat) : (leBytes w v).length = w := by
  simp [leBytes]

theorem leVal_leBytes8 (v : Nat) : leVal (leBytes 8 v) = v % 2 ^ 64 := by
  have h : List.range 8 = [0, 1, 2, 3, 4, 5, 6, 7] := rfl
  simp [leBytes, h, leVal]
  omega

theorem leVal_lt (bs : List Nat) : leVal bs < 256 ^ bs.length := by
  induction bs with
  | nil => simp [leVal]
  | cons b rest ih =>
    have hb : b % 256 < 256 := Nat.mod_lt _ (by omega)
    simp only [leVal, List.length_cons, pow_succ]
    omega

theorem decodeReq_fields_lt (m : Mem) (p : Nat) :
    (decodeReq m p).addr < 2 ^ 64 ∧ (decodeReq m p).offset < 2 ^ 64 ∧
    (decodeReq m p).size < 2 ^ 64 ∧ (decodeReq m p).tag < 2 ^ 64 := by
  have h8 : ∀ a, (memReadBytes m a 8).length = 8 := by
    intro a; simp [memReadBytes]
  refine ⟨?_, ?_, ?_, ?_⟩ <;>
    simpa [decodeReq, h8] using leVal_lt (memReadBytes m _ 8)

theorem memReadBytes_slice (m : Mem) (a k len : Nat) (bs : List Nat)
    (h : k + len ≤ bs.length) :
    memReadBytes (memWriteBytes m a bs) (a + k) len = (bs.drop k).take len := by
  apply List.ext_getElem
  · simp [memReadBytes]
    omega
  · intro i h1 h2
    simp [memReadBytes] at h1
    simp at h2
    simp [memReadBytes, memWriteBytes]
    rw [if_pos (by omega : a ≤ a + k + i ∧ a + k + i < a + bs.length)]
    have he : a + k + i - a = k + i := by omega
    rw [he, List.getElem?_eq_getElem (by omega)]
    rfl

theorem memReadBytes_memWriteBytes (m : Mem) (a : Nat) (bs : List Nat) :
    memReadBytes (memWriteBytes m a bs) a bs.length = bs := by
  have h := memReadBytes_slice m a 0 bs.length bs (by omega)
  simpa using h

theorem take_drop_append8 (x y : List Nat) (h : x.length = 8) :
    (x ++ y).take 8 = x ∧ (x ++ y).drop 8 = y := by
  constructor
  · rw [← h, List.take_left]
  · rw [← h, List.drop_left]

theorem decodeReq_encode (m : Mem) (p : Nat) (r : request_t) :
    decodeReq (memWriteBytes m p (encodeReq r)) p = canonReq r := by
  have hlen : (encodeReq r).length = 32 := by
    simp [encodeReq, leBytes_length]
  have h0 := memReadBytes_slice m p 0 8 (encodeReq r) (by omega)
  have h8 := memReadBytes_slice m p 8 8 (encodeReq r) (by omega)
  have h16 := memReadBytes_slice m p 16 8 (encodeReq r) (by omega)
  have h24 := memReadBytes_slice m p 24 8 (encodeReq r) (by omega)
  have e1 := take_drop_append8 (leBytes 8 r.addr)
    (leBytes 8 r.offset ++ (leBytes 8 r.size ++ leBytes 8 r.tag)) (leBytes_length 8 _)
  have e2 := take_drop_append8 (leBytes 8 r.offset)
    (leBytes 8 r.size ++ leBytes 8 r.tag) (leBytes_length 8 _)
  have e3 := take_drop_append8 (leBytes 8 r.size) (leBytes 8 r.tag) (leBytes_length 8 _)
  have henc : encodeReq r =
      leBytes 8 r.addr ++ (leBytes 8 r.offset ++ (leBytes 8 r.size ++ leBytes 8 r.tag)) := by
    simp [encodeReq]
  rw [henc] at h0 h8 h16 h24
  simp only [List.drop_zero] at h0
  rw [e1.1] at h0
  rw [e1.2, e2.1] at h8
  rw [show (16 : Nat) = 8 + 8 from rfl, ← List.drop_drop, e1.2, e2.2, e3.1] at h16
  rw [show (24 : Nat) = 16 + 8 from rfl, ← List.drop_drop,
      show (16 : Nat) = 8 + 8 from rfl, ← List.drop_drop, e1.2, e2.2, e3.2,
      List.take_of_length_le (by simp [leBytes_length])] at h24
  simp only [show (8 : Nat) + 8 = 16 from rfl] at h16
  simp only [show (8 : Nat) + 8 + 8 = 24 from rfl,
             show (8 : Nat) + (8 + 8) = 24 from rfl] at h24
  simp only [Nat.add_zero] at h0
  simp only [decodeReq, henc, h0, h8, h16, h24, leVal_leBytes8]
  rfl

/-! ## C1 — the identify handler -/

/-- C1. For every identify command with 64-bit payload `p`, with
`what = p % MAX_COMMANDS` and `addr = p / MAX_COMMANDS`, if `addr` is a
multiple of `IDENTITY_SIZE` and the device's identity is shorter than
`IDENTITY_SIZE`, the handler writes exactly one `IDENTITY_SIZE`-byte
zero-padded buffer at `addr` — the device's identity when
`what = MAX_COMMANDS - 1`, else the name registered at slot `what`
(all zeros when never explicitly named, the default name being empty) —
and then responds with 1; if `addr` is not a multiple of `IDENTITY_SIZE`
the handler fails fatally. -/
theorem identify_writes_identity_block (MC IS : Nat) (d : device_t) (p : Nat)
    (hIS : 0 < IS) (hp : p < 2 ^ 64)
    (hnames : ∀ nm ∈ d.command_names, nm.length < IS)
    (hident : d.identity.length < IS) :
    (p / MC % IS = 0 →
      ∃ nm buf : List Nat,
        nm = (if p % MC = MC - 1 then d.identity
              else d.command_names.getD (p % MC) []) ∧
        buf = nm ++ List.replicate (IS - nm.length) 0 ∧
        buf.length = IS ∧
        handle_identify MC IS d p =
          some [.memWrite (p / MC) buf, .respond 1]) ∧
    (p / MC % IS ≠ 0 → handle_identify MC IS d p = none) := by
  constructor
  · intro hal
    have hlt : (if p % MC = MC - 1 then d.identity
                else d.command_names.getD (p % MC) []).length < IS := by
      split
      · exact hident
      · rcases Nat.lt_or_ge (p % MC) d.command_names.length with h | h
        · rw [List.getD_eq_getElem _ _ h]
          exact hnames _ (List.getElem_mem h)
        · rw [List.getD_eq_default _ _ h]
          simpa using hIS
    refine ⟨_, _, rfl, rfl, ?_, ?_⟩
    · simp only [List.length_append, List.length_replicate]
      omega
    · by_cases hb : p % MC = MC - 1
      · simp only [hb, if_pos rfl] at hlt ⊢
        simp [handle_identify, hal, hb, hident, padTo,
              List.take_of_length_le (le_of_lt hident)]
      · simp only [if_neg hb] at hlt ⊢
        simp [handle_identify, hal, hb, padTo]
        have h2 := hlt
        simp [List.getD] at h2
        omega
  · intro hal
    simp [handle_identify, hal]

/-- Witness for C1: a device with `MAX_COMMANDS = 4`, `IDENTITY_SIZE = 4`,
command 1 named `"r"`, identity `"x"`, payload 17 (`what = 1`,
`addr = 4`). -/
theorem identify_writes_identity_block_witness :
    ∃ nm buf : List Nat,
      nm = (if 17 % 4 = 4 - 1 then ([120] : List Nat)
            else ([[], [114], [], []] : List (List Nat)).getD (17 % 4) []) ∧
      buf = nm ++ List.replicate (4 - nm.length) 0 ∧
      buf.length = 4 ∧
      handle_identify 4 4 ⟨[[], [114], [], []], [120]⟩ 17 =
        some [.memWrite (17 / 4) buf, .respond 1] :=
  (identify_writes_identity_block 4 4 ⟨[[], [114], [], []], [120]⟩ 17
    (by decide) (by decide) (by decide) (by decide)).1 (by decide)

/-! ## C2 — dispatch to an unregistered device id -/

/-- C2 counterexample. With `MAX_COMMANDS = 4`, `IDENTITY_SIZE = 16`, on a
fresh registry every slot holds the shared null device; dispatching the
command `{device 0, cmd 0, payload 0}` to the unregistered device id 0
produces an empty trace — zero responses, not the "exactly one response"
the claim demands. -/
theorem null_dispatch_counterexample :
    device_init 4 16 = some ⟨[[], [], [], identityName], []⟩ ∧
    list_handle_command
        (device_list_init 4 (⟨[[], [], [], identityName], []⟩ : device_t))
        (device_handle_command 4 16) 0 0 0 = some [] ∧
    responses [] = [] := by
  refine ⟨by decide, ?_, rfl⟩
  decide

/-- C2 (amended). For every command whose device id is within registry
capacity but refers to a slot where no device was explicitly registered,
dispatch routes the command to the shared no-op device; for every command
id other than the reserved identify index the handler has no side effects
and sends no response (the empty trace). -/
theorem null_dispatch_no_response (MC IS MD : Nat) (nullDev : device_t)
    (hinit : device_init MC IS = some nullDev)
    (devid cmd payload : Nat) (hMD : MD ≤ MC) (hdev : devid < MD) :
    (device_list_init MC nullDev).devices.get? devid = some nullDev ∧
    (cmd ≠ MC - 1 →
      list_handle_command (device_list_init MC nullDev)
        (device_handle_command MC IS) devid cmd payload = some []) := by
  have hget : (device_list_init MC nullDev).devices.get? devid = some nullDev := by
    show (List.replicate MC nullDev).get? devid = some nullDev
    rw [List.get?_eq_getElem?, List.getElem?_replicate, if_pos (by omega)]
  refine ⟨hget, fun hcmd => ?_⟩
  unfold list_handle_command
  rw [hget]
  simp [device_handle_command, hcmd, handle_null_command]

/-- Witness for C2 (amended): `MAX_COMMANDS = 4`, `IDENTITY_SIZE = 16`,
`MAX_DEVICES = 4`, device id 1, command id 0. -/
theorem null_dispatch_no_response_witness :
    (device_list_init 4 (⟨[[], [], [], identityName], []⟩ : device_t)).devices.get? 1 =
      some ⟨[[], [], [], identityName], []⟩ ∧
    ((0 : Nat) ≠ 4 - 1 →
      list_handle_command
        (device_list_init 4 (⟨[[], [], [], identityName], []⟩ : device_t))
        (device_handle_command 4 16) 1 0 5 = some []) :=
  null_dispatch_no_response 4 16 4 ⟨[[], [], [], identityName], []⟩ (by decide)
    1 0 5 (by decide) (by decide)

/-! ## C5 — registry registration -/

theorem setFrom_get?_lt {δ : Type} :
    ∀ (ds : List δ) (v : List δ) (k i : Nat), i < k →
      (setFrom v k ds).get? i = v.get? i := by
  intro ds
  induction ds with
  | nil => intro v k i h; rfl
  | cons d rest ih =>
    intro v k i h
    rw [setFrom, ih _ _ _ (by omega), List.get?_set_ne _ _ (by omega)]

theorem setFrom_get? {δ : Type} :
    ∀ (ds : List δ) (v : List δ) (k i : Nat),
      k ≤ i → i < k + ds.length → i < v.length →
      (setFrom v k ds).get? i = ds.get? (i - k) := by
  intro ds
  induction ds with
  | nil =>
    intro v k i h1 h2 h3
    simp only [List.length_nil, Nat.add_zero] at h2
    omega
  | cons d rest ih =>
    intro v k i h1 h2 h3
    rw [setFrom]
    rcases Nat.eq_or_lt_of_le h1 with rfl | hgt
    · rw [setFrom_get?_lt rest _ _ _ (Nat.lt_succ_self k),
          List.get?_set_eq_of_lt d h3, Nat.sub_self]
      rfl
    · rw [ih (v.set k d) (k + 1) i hgt
            (by simp only [List.length_cons] at h2; omega)
            (by simpa using h3)]
      rw [show i - k = (i - (k + 1)) + 1 by omega]
      rfl

theorem register_devices_eq {δ : Type} (MD : Nat) :
    ∀ (ds : List δ) (l : device_list_t δ),
      register_devices MD l ds =
        if l.num_devices + ds.length < MD ∨ ds.length = 0 then
          some ⟨setFrom l.devices l.num_devices ds, l.num_devices + ds.length⟩
        else none := by
  intro ds
  induction ds with
  | nil =>
    intro l
    rw [if_pos (Or.inr List.length_nil)]
    rfl
  | cons d rest ih =>
    intro l
    show (register_device MD l d) >>= (fun l2 => register_devices MD l2 rest) = _
    simp only [register_device]
    by_cases h : l.num_devices + 1 < MD
    · rw [if_pos h]
      show register_devices MD ⟨l.devices.set l.num_devices d, l.num_devices + 1⟩ rest = _
      rw [ih]
      have harr : setFrom (l.devices.set l.num_devices d) (l.num_devices + 1) rest =
          setFrom l.devices l.num_devices (d :: rest) := rfl
      by_cases h2 : l.num_devices + 1 + rest.length < MD ∨ rest.length = 0
      · rw [if_pos h2,
            if_pos (by simp only [List.length_cons]; omega :
              l.num_devices + (d :: rest).length < MD ∨ (d :: rest).length = 0),
            harr, show l.num_devices + 1 + rest.length = l.num_devices + (d :: rest).length
              by simp only [List.length_cons]; omega]
      · rw [if_neg h2,
            if_neg (by simp only [List.length_cons] at h2 ⊢; omega :
              ¬(l.num_devices + (d :: rest).length < MD ∨ (d :: rest).length = 0))]
    · rw [if_neg h]
      rw [if_neg (by simp only [List.length_cons]; omega :
            ¬(l.num_devices + (d :: rest).length < MD ∨ (d :: rest).length = 0))]
      rfl

/-- C5 counterexample. With `MAX_DEVICES = 2`, registering 2 devices on a
fresh registry fails fatally at the second call (`num_devices` becomes 2
and the assertion `num_devices < MAX_DEVICES` fires), refuting
"registering up to MAX_DEVICES devices succeeds". -/
theorem register_device_capacity_counterexample :
    register_devices 2 (device_list_init 4 (0 : Nat)) [1, 2] = none := by
  decide

/-- C5 (amended). Each `register_device` call on a fresh registry appends
the device at the next free slot in order, and the sequence fails fatally
precisely when the registered count would reach `MAX_DEVICES`: up to
`MAX_DEVICES - 1` devices succeed, the `MAX_DEVICES`-th registration is
fatal. -/
theorem register_device_appends_in_order {δ : Type} (MC MD : Nat)
    (nullDev : δ) (ds : List δ) (hcap : ds.length ≤ MC) :
    (register_devices MD (device_list_init MC nullDev) ds = none ↔
      ds ≠ [] ∧ MD ≤ ds.length) ∧
    (∀ l2, register_devices MD (device_list_init MC nullDev) ds = some l2 →
      l2.num_devices = ds.length ∧
      ∀ i, i < ds.length → l2.devices.get? i = ds.get? i) := by
  rw [register_devices_eq]
  have hnum : (device_list_init MC nullDev).num_devices = 0 := rfl
  constructor
  · constructor
    · intro h
      by_cases hc : (device_list_init MC nullDev).num_devices + ds.length < MD ∨
          ds.length = 0
      · rw [if_pos hc] at h; cases h
      · rw [hnum] at hc
        refine ⟨fun he => ?_, by omega⟩
        subst he
        simp at hc
    · intro hx
      have hlen : 0 < ds.length := List.length_pos.mpr hx.1
      rw [if_neg (by rw [hnum]; omega)]
  · intro l2 h
    by_cases hc : (device_list_init MC nullDev).num_devices + ds.length < MD ∨
        ds.length = 0
    · rw [if_pos hc] at h
      injection h with h
      subst h
      refine ⟨by show 0 + ds.length = ds.length; omega, fun i hi => ?_⟩
      show (setFrom (List.replicate MC nullDev) 0 (ds)).get? i = ds.get? i
      rw [setFrom_get? ds _ 0 i (by omega) (by omega)
            (by rw [List.length_replicate]; omega), Nat.sub_zero]
    · rw [if_neg hc] at h
      cases h

/-- Witness for C5 (amended): `MAX_COMMANDS = 4`, `MAX_DEVICES = 3`,
registering the two devices `7` and `9` on a fresh registry. -/
theorem register_device_appends_in_order_witness :
    (register_devices 3 (device_list_init 4 (0 : Nat)) [7, 9] = none ↔
      ([7, 9] : List Nat) ≠ [] ∧ 3 ≤ ([7, 9] : List Nat).length) ∧
    (∀ l2, register_devices 3 (device_list_init 4 (0 : Nat)) [7, 9] = some l2 →
      l2.num_devices = ([7, 9] : List Nat).length ∧
      ∀ i, i < ([7, 9] : List Nat).length →
        l2.devices.get? i = ([7, 9] : List Nat).get? i) :=
  register_device_appends_in_order 4 3 0 [7, 9] (by decide)

/-! ## C6 — console FIFO ordering -/

theorem bcd_enqueue_fifo :
    ∀ (rs q : List Nat), List.foldl bcd_handle_read ⟨q⟩ rs = ⟨q ++ rs⟩ := by
  intro rs
  induction rs with
  | nil => intro q; simp
  | cons r rest ih =>
    intro q
    show List.foldl bcd_handle_read (bcd_handle_read ⟨q⟩ r) rest = _
    rw [bcd_handle_read, ih]
    simp

theorem bcd_run_responses :
    ∀ (k : Nat) (rs cs : List Nat),
      (bcd_run ⟨rs⟩ cs k).2.2 =
        ((rs.zip cs).take k).map fun rc => (rc.1, 0x100 ||| rc.2) := by
  intro k
  induction k with
  | zero => intro rs cs; simp [bcd_run]
  | succ k ih =>
    intro rs cs
    match rs, cs with
    | [], cs =>
      show (bcd_run ⟨[]⟩ cs k).2.2 = _
      rw [ih]
      simp
    | r :: rs2, [] =>
      show (bcd_run ⟨r :: rs2⟩ [] k).2.2 = _
      rw [ih]
      simp
    | r :: rs2, c :: cs2 =>
      show ((r, 0x100 ||| c) :: (bcd_run ⟨rs2⟩ cs2 k).2.2 : List (Nat × Nat)) = _
      rw [ih]
      simp

/-- C6. `N` console reads enqueued before any input arrives (the FIFO then
holds them in arrival order), followed by the characters `c1..cN`: each
tick sends at most one response and consumes at most one buffered
character, and after `N` ticks the `i`-th queued read has been answered
with `0x100 ||| c_i` — strictly FIFO, never reordered. -/
theorem console_reads_fifo_order (rs cs : List Nat) (N : Nat)
    (hr : rs.length = N) (hc : cs.length = N) :
    List.foldl bcd_handle_read ⟨[]⟩ rs = ⟨rs⟩ ∧
    (bcd_run ⟨rs⟩ cs N).2.2 =
      (rs.zip cs).map (fun rc => (rc.1, 0x100 ||| rc.2)) ∧
    (∀ (s : bcd_t) (term : List Nat),
      ((bcd_tick s term).2.2).length ≤ 1 ∧
      term.length ≤ ((bcd_tick s term).2.1).length + 1) := by
  refine ⟨by simpa using bcd_enqueue_fifo rs [], ?_, ?_⟩
  · rw [bcd_run_responses]
    rw [List.take_of_length_le]
    rw [List.length_zip]
    omega
  · intro s term
    match s, term with
    | ⟨[]⟩, term => simp [bcd_tick]
    | ⟨r :: rest⟩, [] => simp [bcd_tick]
    | ⟨r :: rest⟩, c :: term2 => simp [bcd_tick]

/-- Witness for C6: two reads `10, 11` queued, then the characters
`65, 66` arrive. -/
theorem console_reads_fifo_order_witness :
    List.foldl bcd_handle_read ⟨[]⟩ [10, 11] = ⟨[10, 11]⟩ ∧
    (bcd_run ⟨[10, 11]⟩ [65, 66] 2).2.2 =
      ([10, 11].zip [65, 66]).map (fun rc => (rc.1, 0x100 ||| rc.2)) ∧
    (∀ (s : bcd_t) (term : List Nat),
      ((bcd_tick s term).2.2).length ≤ 1 ∧
      term.length ≤ ((bcd_tick s term).2.1).length + 1) :=
  console_reads_fifo_order [10, 11] [65, 66] 2 (by decide) (by decide)

/-! ## C7 — block-device write/read round trip -/

theorem filePread_filePwrite (f : List Nat) (O : Nat) (B : List Nat)
    (h : O + B.length ≤ f.length) :
    filePread (filePwrite f O B) O B.length = B := by
  have hpad : O + B.length - f.length = 0 := by omega
  have h1 : (f.take O).length = O := by
    rw [List.length_take]
    omega
  have h2 : filePwrite f O B = f.take O ++ (B ++ f.drop (O + B.length)) := by
    simp [filePwrite, hpad]
  show ((filePwrite f O B).drop O).take B.length = B
  rw [h2, List.drop_left' h1, List.take_left' rfl]

/-- C7. Writing a buffer `B` of `n` bytes at file offset `O` through the
block device (descriptor at `pW`, data at target address `aW`), then
reading `n` bytes at offset `O` (descriptor at `pR`, target address
`aR`), with `O + n` within the backing file, writes exactly `B` back into
target memory at `aR`, each command responding with its own descriptor's
tag. -/
theorem disk_write_then_read_roundtrip (d : disk_t) (m : Mem)
    (pW pR aW aR O n tW tR : Nat) (B : List Nat)
    (hW : decodeReq m pW = ⟨aW, O, n, tW⟩)
    (hB : memReadBytes m aW n = B)
    (hR : decodeReq m pR = ⟨aR, O, n, tR⟩)
    (hlen : O + n ≤ d.contents.length) :
    ∃ (d1 : disk_t) (t1 t2 : List Event),
      disk_handle_write d m pW = some (d1, t1) ∧ responses t1 = [tW] ∧
      applyEvents m t1 = m ∧
      disk_handle_read d1 m pR = some (d1, t2) ∧ responses t2 = [tR] ∧
      memReadBytes (applyEvents m t2) aR n = B := by
  have hBlen : B.length = n := by
    rw [← hB]
    simp [memReadBytes]
  have hread : filePread (filePwrite d.contents O B) O n = B := by
    rw [← hBlen]
    exact filePread_filePwrite d.contents O B (by omega)
  refine ⟨⟨filePwrite d.contents O B⟩,
          [.memRead pW requestBytes, .memRead aW n, .respond tW],
          [.memRead pR requestBytes, .memWrite aR B, .respond tR],
          ?_, ?_, ?_, ?_, ?_, ?_⟩
  · simp [disk_handle_write, hW, hB]
  · simp [responses]
  · rfl
  · simp [disk_handle_read, hR, hread, hBlen]
  · simp [responses]
  · show memReadBytes (memWriteBytes m aR B) aR n = B
    rw [← hBlen]
    exact memReadBytes_memWriteBytes m aR B

/-- Witness for C7: an 8-byte backing file of zeros, the memory `c7mem`,
buffer `[5, 6, 7]` written at offset 2 and read back at target address
200. -/
theorem disk_write_then_read_roundtrip_witness :
    ∃ (d1 : disk_t) (t1 t2 : List Event),
      disk_handle_write ⟨List.replicate 8 0⟩ c7mem 0 = some (d1, t1) ∧
      responses t1 = [77] ∧
      applyEvents c7mem t1 = c7mem ∧
      disk_handle_read d1 c7mem 40 = some (d1, t2) ∧
      responses t2 = [88] ∧
      memReadBytes (applyEvents c7mem t2) 200 3 = [5, 6, 7] :=
  disk_write_then_read_roundtrip ⟨List.replicate 8 0⟩ c7mem 0 40 100 200 2 3
    77 88 [5, 6, 7] (by decide) (by decide) (by decide) (by decide)

/-! ## C3 — socket-bridge partial write resumption -/

theorem canonReq_eq_self (r : request_t) (h1 : r.addr < 2 ^ 64)
    (h2 : r.offset < 2 ^ 64) (h3 : r.size < 2 ^ 64) (h4 : r.tag < 2 ^ 64) :
    canonReq r = r := by
  cases r
  simp_all [canonReq, Nat.mod_eq_of_lt]

/-- C3. For a socket-bridge write dispatched while connected: a transfer
of `n` bytes with `0 < n ≤ size` rewrites the descriptor in target memory
in place to `{size - n, addr + n}`; a would-block outcome (`n = 0`)
leaves target memory unmodified; and every non-fatal outcome is answered
with `tag`. -/
theorem char_write_partial_updates_descriptor (s : char_t) (m : Mem)
    (p n : Nat) (hs : s.connected = true)
    (hn : n ≤ (decodeReq m p).size)
    (haddr : (decodeReq m p).addr + n < 2 ^ 64) :
    (0 < n →
      ∃ tr, char_handle_write s m p (.count n) = some (s, tr) ∧
        responses tr = [(decodeReq m p).tag] ∧
        decodeReq (applyEvents m tr) p =
          { addr := (decodeReq m p).addr + n, offset := (decodeReq m p).offset,
            size := (decodeReq m p).size - n, tag := (decodeReq m p).tag }) ∧
    (∃ tr, char_handle_write s m p .wouldBlock = some (s, tr) ∧
      responses tr = [(decodeReq m p).tag] ∧
      applyEvents m tr = m) ∧
    (∀ net : NetWriteResult, net ≠ .fail →
      ∃ s2 tr, char_handle_write s m p net = some (s2, tr) ∧
        responses tr = [(decodeReq m p).tag]) := by
  obtain ⟨ha, ho, hsz, ht⟩ := decodeReq_fields_lt m p
  refine ⟨?_, ?_, ?_⟩
  · intro hpos
    refine ⟨[.memRead p requestBytes,
             .memRead (decodeReq m p).addr (decodeReq m p).size,
             .memWrite p (encodeReq { decodeReq m p with
                size := (decodeReq m p).size - n,
                addr := (decodeReq m p).addr + n }),
             .respond (decodeReq m p).tag], ?_, ?_, ?_⟩
    · simp [char_handle_write, hs, Nat.pos_iff_ne_zero.mp hpos]
    · simp [responses]
    · show decodeReq (memWriteBytes m p (encodeReq
        { decodeReq m p with size := (decodeReq m p).size - n,
                             addr := (decodeReq m p).addr + n })) p = _
      rw [decodeReq_encode, canonReq_eq_self]
      · exact haddr
      · exact ho
      · exact lt_of_le_of_lt (Nat.sub_le _ _) hsz
      · exact ht
  · refine ⟨[.memRead p requestBytes,
             .memRead (decodeReq m p).addr (decodeReq m p).size,
             .respond (decodeReq m p).tag], ?_, ?_, ?_⟩
    · simp [char_handle_write, hs]
    · simp [responses]
    · rfl
  · intro net hnet
    match net with
    | .fail => exact absurd rfl hnet
    | .wouldBlock =>
      refine ⟨s, [.memRead p requestBytes,
                  .memRead (decodeReq m p).addr (decodeReq m p).size,
                  .respond (decodeReq m p).tag], ?_, ?_⟩
      · simp [char_handle_write, hs]
      · simp [responses]
    | .count k =>
      by_cases hk : k = 0
      · subst hk
        refine ⟨⟨false⟩, [.memRead p requestBytes,
                          .memRead (decodeReq m p).addr (decodeReq m p).size,
                          .respond (decodeReq m p).tag], ?_, ?_⟩
        · simp [char_handle_write, hs]
        · simp [responses]
      · refine ⟨s, [.memRead p requestBytes,
                    .memRead (decodeReq m p).addr (decodeReq m p).size,
                    .memWrite p (encodeReq { decodeReq m p with
                       size := (decodeReq m p).size - k,
                       addr := (decodeReq m p).addr + k }),
                    .respond (decodeReq m p).tag], ?_, ?_⟩
        · simp [char_handle_write, hs, hk]
        · simp [responses]

/-- Witness for C3: connected device, descriptor
`{addr 100, offset 0, size 5, tag 9}` at payload 0, transfer of 2 bytes. -/
theorem char_write_partial_updates_descriptor_witness :
    (0 < 2 →
      ∃ tr, char_handle_write ⟨true⟩ charMem 0 (.count 2) = some (⟨true⟩, tr) ∧
        responses tr = [(decodeReq charMem 0).tag] ∧
        decodeReq (applyEvents charMem tr) 0 =
          { addr := (decodeReq charMem 0).addr + 2,
            offset := (decodeReq charMem 0).offset,
            size := (decodeReq charMem 0).size - 2,
            tag := (decodeReq charMem 0).tag }) ∧
    (∃ tr, char_handle_write ⟨true⟩ charMem 0 .wouldBlock = some (⟨true⟩, tr) ∧
      responses tr = [(decodeReq charMem 0).tag] ∧
      applyEvents charMem tr = charMem) ∧
    (∀ net : NetWriteResult, net ≠ .fail →
      ∃ s2 tr, char_handle_write ⟨true⟩ charMem 0 net = some (s2, tr) ∧
        responses tr = [(decodeReq charMem 0).tag]) :=
  char_write_partial_updates_descriptor ⟨true⟩ charMem 0 2 (by decide)
    (by decide) (by decide)

/-! ## C4 — socket-bridge read write-back of the transferred count -/

/-- C4. For every socket-bridge read, in every non-fatal outcome — no
connection, would-block, peer closed (connection torn down), or a
positive transfer of `n` bytes written to the descriptor's target
address — the descriptor's size field is overwritten with the actual
transferred count (0 in the first three cases), the descriptor is written
back to target memory before the response, and the command is answered
with `tag`. -/
theorem char_read_writes_back_count (s : char_t) (m : Mem) (p : Nat) :
    (s.connected = false →
      ∀ net : NetReadResult, ∃ tr,
        char_handle_read s m p net = some (s, tr) ∧
        tr = [.memRead p requestBytes,
              .memWrite p (encodeReq { decodeReq m p with size := 0 }),
              .respond (decodeReq m p).tag] ∧
        responses tr = [(decodeReq m p).tag] ∧
        tr.getLast? = some (.respond (decodeReq m p).tag) ∧
        decodeReq (applyEvents m tr) p = { decodeReq m p with size := 0 }) ∧
    (s.connected = true →
      (∃ tr, char_handle_read s m p .wouldBlock = some (s, tr) ∧
        tr = [.memRead p requestBytes,
              .memWrite p (encodeReq { decodeReq m p with size := 0 }),
              .respond (decodeReq m p).tag] ∧
        responses tr = [(decodeReq m p).tag] ∧
        tr.getLast? = some (.respond (decodeReq m p).tag) ∧
        decodeReq (applyEvents m tr) p = { decodeReq m p with size := 0 }) ∧
      (∃ tr, char_handle_read s m p (.bytes []) = some (⟨false⟩, tr) ∧
        tr = [.memRead p requestBytes,
              .memWrite p (encodeReq { decodeReq m p with size := 0 }),
              .respond (decodeReq m p).tag] ∧
        responses tr = [(decodeReq m p).tag] ∧
        tr.getLast? = some (.respond (decodeReq m p).tag) ∧
        decodeReq (applyEvents m tr) p = { decodeReq m p with size := 0 }) ∧
      (∀ bs : List Nat, 0 < bs.length → bs.length ≤ (decodeReq m p).size →
        ∃ tr, char_handle_read s m p (.bytes bs) = some (s, tr) ∧
          tr = [.memRead p requestBytes,
                .memWrite (decodeReq m p).addr bs,
                .memWrite p (encodeReq { decodeReq m p with size := bs.length }),
                .respond (decodeReq m p).tag] ∧
          responses tr = [(decodeReq m p).tag] ∧
          tr.getLast? = some (.respond (decodeReq m p).tag) ∧
          decodeReq (applyEvents m tr) p =
            { decodeReq m p with size := bs.length })) := by
  obtain ⟨ha, ho, hsz, ht⟩ := decodeReq_fields_lt m p
  have hdec : ∀ k, k < 2 ^ 64 →
      decodeReq (memWriteBytes m p (encodeReq { decodeReq m p with size := k })) p =
        { decodeReq m p with size := k } := by
    intro k hk
    rw [decodeReq_encode, canonReq_eq_self]
    · exact ha
    · exact ho
    · exact hk
    · exact ht
  constructor
  · intro hs net
    refine ⟨_, ?_, rfl, by simp [responses], rfl, ?_⟩
    · simp [char_handle_read, hs]
    · exact hdec 0 (by norm_num)
  · intro hs
    refine ⟨⟨_, ?_, rfl, by simp [responses], rfl, ?_⟩,
            ⟨_, ?_, rfl, by simp [responses], rfl, ?_⟩, ?_⟩
    · simp [char_handle_read, hs]
    · exact hdec 0 (by norm_num)
    · simp [char_handle_read, hs]
    · exact hdec 0 (by norm_num)
    · intro bs hpos hle
      refine ⟨_, ?_, rfl, by simp [responses], rfl, ?_⟩
      · simp [char_handle_read, hs, Nat.pos_iff_ne_zero.mp hpos]
      · show decodeReq (memWriteBytes (memWriteBytes m (decodeReq m p).addr bs)
          p (encodeReq { decodeReq m p with size := bs.length })) p = _
        rw [decodeReq_encode, canonReq_eq_self]
        · exact ha
        · exact ho
        · exact lt_of_le_of_lt hle hsz
        · exact ht

/-- Witness for C4: connected device, descriptor
`{addr 100, offset 0, size 5, tag 9}` at payload 0, two bytes received. -/
theorem char_read_writes_back_count_witness :
    ∃ tr, char_handle_read ⟨true⟩ charMem 0 (.bytes [3, 4]) = some (⟨true⟩, tr) ∧
      tr = [.memRead 0 requestBytes,
            .memWrite (decodeReq charMem 0).addr [3, 4],
            .memWrite 0 (encodeReq { decodeReq charMem 0 with size := 2 }),
            .respond (decodeReq charMem 0).tag] ∧
      responses tr = [(decodeReq charMem 0).tag] ∧
      tr.getLast? = some (.respond (decodeReq charMem 0).tag) ∧
      decodeReq (applyEvents charMem tr) 0 =
        { decodeReq charMem 0 with size := 2 } :=
  ((char_read_writes_back_count ⟨true⟩ charMem 0).2 (by decide)).2.2
    [3, 4] (by decide) (by decide)

/-! ## C8 — socket-bridge poll mapping -/

/-- C8. The poll handler maps the zero-timeout OS poll outcome to the
device-local bitmask and responds with it: zero ready descriptors yields
exactly the hangup bit; one ready descriptor yields a mask whose
readable, writable and hangup bits mirror the OS `POLLIN`/`POLLOUT`/
`POLLHUP` bits; an OS error is fatal, and any other OS return value is
fatal. -/
theorem char_poll_maps_os_result (os : OsPollResult) :
    (os = .fail → char_handle_poll os = none) ∧
    (os = .other → char_handle_poll os = none) ∧
    (os = .zeroReady → char_handle_poll os = some [.respond CHAR_POLLHUP]) ∧
    (∀ pollin pollout pollhup : Bool, os = .oneReady pollin pollout pollhup →
      ∃ v : Nat, char_handle_poll os = some [.respond v] ∧
        ((v &&& CHAR_POLLIN ≠ 0) ↔ pollin = true) ∧
        ((v &&& CHAR_POLLOUT ≠ 0) ↔ pollout = true) ∧
        ((v &&& CHAR_POLLHUP ≠ 0) ↔ pollhup = true)) := by
  refine ⟨fun h => by rw [h]; rfl, fun h => by rw [h]; rfl,
          fun h => by rw [h]; rfl, ?_⟩
  intro pollin pollout pollhup h
  subst h
  refine ⟨_, rfl, ?_, ?_, ?_⟩ <;>
    rcases pollin with _ | _ <;> rcases pollout with _ | _ <;>
    rcases pollhup with _ | _ <;> decide

/-- Witness for C8: one ready descriptor, readable and hangup set,
writable clear. -/
theorem char_poll_maps_os_result_witness :
    ∃ v : Nat, char_handle_poll (.oneReady true false true) =
        some [.respond v] ∧
      ((v &&& CHAR_POLLIN ≠ 0) ↔ true = true) ∧
      ((v &&& CHAR_POLLOUT ≠ 0) ↔ false = true) ∧
      ((v &&& CHAR_POLLHUP ≠ 0) ↔ true = true) :=
  (char_poll_maps_os_result (.oneReady true false true)).2.2.2
    true false true rfl

/-! ## C9 — socket-bridge write with no connection -/

/-- C9. A socket-bridge write dispatched while no connection is active
responds immediately with the descriptor's tag and performs no data
movement and no descriptor mutation: the trace holds only the descriptor
read and the response, and target memory is unchanged. -/
theorem char_write_disconnected_frame (s : char_t) (m : Mem) (p : Nat)
    (net : NetWriteResult) (hs : s.connected = false) :
    char_handle_write s m p net =
      some (s, [.memRead p requestBytes, .respond (decodeReq m p).tag]) ∧
    responses [Event.memRead p requestBytes,
               Event.respond (decodeReq m p).tag] = [(decodeReq m p).tag] ∧
    applyEvents m [Event.memRead p requestBytes,
                   Event.respond (decodeReq m p).tag] = m := by
  refine ⟨?_, by simp [responses], rfl⟩
  simp [char_handle_write, hs]

/-- Witness for C9: disconnected device, descriptor tag 9 at payload 0. -/
theorem char_write_disconnected_frame_witness :
    char_handle_write ⟨false⟩ charMem 0 (.count 3) =
      some (⟨false⟩, [.memRead 0 requestBytes,
                      .respond (decodeReq charMem 0).tag]) ∧
    responses [Event.memRead 0 requestBytes,
               Event.respond (decodeReq charMem 0).tag] =
      [(decodeReq charMem 0).tag] ∧
    applyEvents charMem [Event.memRead 0 requestBytes,
                         Event.respond (decodeReq charMem 0).tag] = charMem :=
  char_write_disconnected_frame ⟨false⟩ charMem 0 (.count 3) rfl

/-! ## C10 — zero-size requests tear the connection down -/

/-- C10. With an active connection and a descriptor of size 0, the
non-blocking host syscall can only transfer zero bytes (any transfer
outcome `n` satisfies `n ≤ size = 0`), and the zero branch tears the
connection down exactly as for peer closure: after the command the state
is disconnected, and subsequent socket-bridge commands take the
no-connection paths (a read writes back size 0, a write responds with
`tag` and moves no data). -/
theorem char_zero_size_request_tears_down (s : char_t) (m : Mem) (p : Nat)
    (hs : s.connected = true) (hsize : (decodeReq m p).size = 0) :
    (∀ bs : List Nat, bs.length ≤ (decodeReq m p).size →
      char_handle_read s m p (.bytes bs) =
        some (⟨false⟩,
          [.memRead p requestBytes,
           .memWrite p (encodeReq { decodeReq m p with size := 0 }),
           .respond (decodeReq m p).tag])) ∧
    (∀ n : Nat, n ≤ (decodeReq m p).size →
      char_handle_write s m p (.count n) =
        some (⟨false⟩,
          [.memRead p requestBytes,
           .memRead (decodeReq m p).addr (decodeReq m p).size,
           .respond (decodeReq m p).tag])) ∧
    (∀ (m2 : Mem) (p2 : Nat) (net2 : NetWriteResult),
      char_handle_write ⟨false⟩ m2 p2 net2 =
        some (⟨false⟩, [.memRead p2 requestBytes,
                        .respond (decodeReq m2 p2).tag])) ∧
    (∀ (m2 : Mem) (p2 : Nat) (net2 : NetReadResult),
      char_handle_read ⟨false⟩ m2 p2 net2 =
        some (⟨false⟩,
          [.memRead p2 requestBytes,
           .memWrite p2 (encodeReq { decodeReq m2 p2 with size := 0 }),
           .respond (decodeReq m2 p2).tag])) := by
  refine ⟨?_, ?_, ?_, ?_⟩
  · intro bs hbs
    rw [hsize] at hbs
    have : bs.length = 0 := by omega
    simp [char_handle_read, hs, this]
  · intro n hn
    rw [hsize] at hn
    have : n = 0 := by omega
    subst this
    simp [char_handle_write, hs]
  · intro m2 p2 net2
    simp [char_handle_write]
  · intro m2 p2 net2
    simp [char_handle_read]

/-- Witness for C10: connected device, zero-size descriptor at payload 0,
zero-byte syscall outcomes. -/
theorem char_zero_size_request_tears_down_witness :
    char_handle_read ⟨true⟩ charMem0 0 (.bytes []) =
      some (⟨false⟩,
        [.memRead 0 requestBytes,
         .memWrite 0 (encodeReq { decodeReq charMem0 0 with size := 0 }),
         .respond (decodeReq charMem0 0).tag]) ∧
    char_handle_write ⟨true⟩ charMem0 0 (.count 0) =
      some (⟨false⟩,
        [.memRead 0 requestBytes,
         .memRead (decodeReq charMem0 0).addr (decodeReq charMem0 0).size,
         .respond (decodeReq charMem0 0).tag]) :=
  ⟨((char_zero_size_request_tears_down ⟨true⟩ charMem0 0 rfl (by decide)).1
      [] (by decide)),
   ((char_zero_size_request_tears_down ⟨true⟩ charMem0 0 rfl (by decide)).2.1
      0 (by decide))⟩

end Fesvr
